import Mathlib

/-!
Shallow embedding of the TUN device packet engine from `src/network/tun.go`
(package `network`: `NewTun`, `Close`, `read`, `write`, `Bind`, `Read`, `Write`).

Bytes are modelled as `Nat`, byte slices as `List Nat` (the list is the
visible window of the slice), and Go buffered channels of `Packet` as a
record of capacity, buffered items in FIFO order, and a closed flag.
The environment (syscall results, `os.File` operations) is passed in
explicitly: each fallible boundary call takes an `Option String` or
`Except String _` saying whether the OS reports an error and with what text.
Go `select` with several ready cases picks pseudo-randomly; that choice is an
explicit `Bool` argument.
-/

namespace Network

/-- Constants from the `const` block of `tun.go`. -/
def TUNSETIFF : Nat := 0x400454ca

def IFF_TUN : Nat := 0x0001

def IFF_NO_PI : Nat := 0x1000

def PACKET_SIZE : Nat := 2048

def QUEUE_SIZE : Nat := 10

/-- `type Packet struct { Buf []byte; N uintptr }`. -/
structure Packet where
  Buf : List Nat
  N : Nat
deriving DecidableEq, Repr

/-- A Go buffered channel of `Packet`: fixed capacity (from `make(chan Packet, c)`),
buffered items in FIFO order, and whether `close` was called on it. -/
structure Chan where
  capacity : Nat
  items : List Packet
  closed : Bool
deriving DecidableEq, Repr

/-- `make(chan Packet, c)`: empty buffer, open. -/
def mkChan (c : Nat) : Chan :=
  { capacity := c, items := [], closed := false }

/-- A buffered-channel send appends at the back of the buffer. -/
def Chan.send (c : Chan) (p : Packet) : Chan :=
  { c with items := c.items ++ [p] }

/-- A send can proceed immediately iff the buffer has free space. -/
def Chan.sendReady (c : Chan) : Bool :=
  c.items.length < c.capacity

/-- A buffered-channel receive takes the front of the buffer. -/
def Chan.recvFront (c : Chan) : Chan :=
  { c with items := c.items.tail }

/-- `type NetDevice struct`: the file handle, the two queues, and the
`context.Context` / `context.CancelFunc` pair. `ctx = none` models the nil
zero value before `Bind` runs (`cancel` is nil exactly when `ctx` is);
`ctx = some d` models an initialized context whose `Done` channel is closed
iff `d = true`. -/
structure NetDevice where
  fileOpen : Bool
  incomingQueue : Chan
  outgoingQueue : Chan
  ctx : Option Bool
deriving DecidableEq, Repr

/-- The byte content of the Go string literal "tun0". -/
def tun0Bytes : List Nat := [0x74, 0x75, 0x6e, 0x30]

/-- Go `copy(dst, src)`: overwrites the first `min |src| |dst|` elements of
`dst` with those of `src`, leaving the rest of `dst` unchanged. -/
def goCopy (dst src : List Nat) : List Nat :=
  src.take dst.length ++ dst.drop (min src.length dst.length)

/-- `type ifreq struct { ifrName [16]byte; ifrFlags int16 }`. -/
structure ifreq where
  ifrName : List Nat
  ifrFlags : Int
deriving DecidableEq, Repr

/-- Operations `NewTun` performs on the control device handle, in order. -/
inductive FileOp where
  | openRW (path : String)
  | ioctl (request : Nat) (arg : ifreq)
  | close
deriving DecidableEq, Repr

deriving instance DecidableEq for Except

/-- Result of `NewTun`: the engine or the error, together with the trace of
operations issued on the control device handle. -/
structure NewTunOutcome where
  result : Except String NetDevice
  ops : List FileOp
deriving DecidableEq, Repr

/-- `NewTun()` from `tun.go`. `openErr` is the error `os.OpenFile` reports
(if any); `ioctlErr` is the errno text the `TUNSETIFF` ioctl reports (if any).
On open failure it returns `"open error: ..."` having touched no handle.
Otherwise it builds `ifr` (zero value, then `copy(ifr.ifrName[:], "tun0")`,
then `ifr.ifrFlags = IFF_TUN | IFF_NO_PI`) and issues exactly one ioctl.
On ioctl failure it returns `"ioctl error: ..."` — without closing the opened
handle. On success it returns the engine with two fresh queues of capacity
`QUEUE_SIZE` and nil `ctx`/`cancel`. -/
def NewTun (openErr : Option String) (ioctlErr : Option String) : NewTunOutcome :=
  match openErr with
  | some e => { result := .error ("open error: " ++ e), ops := [] }
  | none =>
    let ifr0 : ifreq := { ifrName := List.replicate 16 0, ifrFlags := 0 }
    let ifr : ifreq :=
      { ifrName := goCopy ifr0.ifrName tun0Bytes
        ifrFlags := Int.ofNat (IFF_TUN ||| IFF_NO_PI) }
    match ioctlErr with
    | some e =>
      { result := .error ("ioctl error: " ++ e)
        ops := [.openRW "/dev/net/tun", .ioctl TUNSETIFF ifr] }
    | none =>
      { result := .ok
          { fileOpen := true
            incomingQueue := mkChan QUEUE_SIZE
            outgoingQueue := mkChan QUEUE_SIZE
            ctx := none }
        ops := [.openRW "/dev/net/tun", .ioctl TUNSETIFF ifr] }

/-- Result of `Close`. `nilPanic` is the run-time panic from invoking the nil
`t.cancel` of a never-bound engine. -/
inductive CloseResult where
  | ok
  | closeError (msg : String)
  | nilPanic
deriving DecidableEq, Repr

/-- `func (t *NetDevice) Close() error`. `fileCloseErr` is the error
`t.file.Close()` reports (if any). On failure it returns
`"close error: ..."` at once — before `t.cancel()` runs, so the token stays
untouched. On success the handle is released and then `t.cancel()` runs:
a panic if `cancel` is nil (never bound), otherwise the token is set. -/
def NetDevice.Close (t : NetDevice) (fileCloseErr : Option String) :
    CloseResult × NetDevice :=
  match fileCloseErr with
  | some e => (.closeError ("close error: " ++ e), t)
  | none =>
    let t1 := { t with fileOpen := false }
    match t1.ctx with
    | none => (.nilPanic, t1)
    | some _ => (.ok, { t1 with ctx := some true })

/-- `func (tun *NetDevice) Bind()`: assigns `tun.ctx, tun.cancel` from
`context.WithCancel(context.Background())` — a fresh, not-yet-cancelled
context — and launches the two pump goroutines (modelled per-iteration by
`readPumpIter` / `writePumpIter`). -/
def NetDevice.Bind (t : NetDevice) : NetDevice :=
  { t with ctx := some false }

/-- Effect of `t.read(buf)` (the `SYS_READ` syscall wrapper) on the buffer:
on syscall failure it returns `(buf, 0, "read error: ...")` (the wrapper
returns `0, err`); on success the kernel wrote `data` into the front of the
buffer and it returns `n = |data|` with no error. Faithful for
`|data| ≤ |buf|`, which the kernel guarantees (`n ≤ len(buf)`). -/
def sysRead (readRes : Except String (List Nat)) (buf : List Nat) :
    List Nat × Nat × Option String :=
  match readRes with
  | .error e => (buf, 0, some ("read error: " ++ e))
  | .ok data => (data ++ buf.drop data.length, data.length, none)

/-- What one iteration of the read-pump loop in `Bind` does. -/
structure ReadPumpIter where
  terminated : Bool
  allocated : Option Nat
  logged : Option String
  enqueued : Option Packet
deriving DecidableEq, Repr

/-- One iteration of the read-pump goroutine of `Bind`. If `tun.ctx.Done()`
is ready the pump returns. Otherwise (the `default` case) it allocates a
fresh `PACKET_SIZE` buffer, runs `tun.read(buf)`, logs any error (without
skipping the rest of the body), builds `Packet{Buf: buf[:n], N: n}` and
sends it on `tun.incomingQueue` (blocking while the queue is full). -/
def readPumpIter (ctxDone : Bool) (readRes : Except String (List Nat)) :
    ReadPumpIter :=
  if ctxDone then
    { terminated := true, allocated := none, logged := none, enqueued := none }
  else
    let buf := List.replicate PACKET_SIZE 0
    let r := sysRead readRes buf
    { terminated := false
      allocated := some PACKET_SIZE
      logged := r.2.2
      enqueued := some { Buf := r.1.take r.2.1, N := r.2.1 } }

/-- What one iteration of the write-pump loop in `Bind` does. `wrote devBytes
logged` records the exact byte view handed to the `SYS_WRITE` syscall.
`panicked` is the run-time panic of `&buf[0]` on an empty slice. -/
inductive WritePumpIter where
  | terminated
  | blocked
  | wrote (devBytes : List Nat) (logged : Option String)
  | panicked
deriving DecidableEq, Repr

/-- The write-pump body once a packet `pkt` is received from the outgoing
queue: `tun.write(pkt.Buf[:pkt.N])`, logging any error and continuing.
The syscall wrapper takes `&buf[0]`, which panics on an empty slice.
`pkt.Buf` models the full backing window of the slice, so the view written
is `pkt.Buf.take pkt.N` (faithful for `pkt.N ≤ |pkt.Buf|`). -/
def writePumpBody (pkt : Packet) (writeErr : Option String) : WritePumpIter :=
  let buf := pkt.Buf.take pkt.N
  if buf.isEmpty then .panicked
  else
    match writeErr with
    | some e => .wrote buf (some ("write error: " ++ e))
    | none => .wrote buf none

/-- One iteration of the write-pump goroutine of `Bind`: `select` over
`tun.ctx.Done()` and a receive from `tun.outgoingQueue`. `front` is the
packet at the head of the queue, if any; when both cases are ready, Go picks
pseudo-randomly (`selectChoice = true` picks the `Done` case). -/
def writePumpIter (ctxDone : Bool) (front : Option Packet)
    (selectChoice : Bool) (writeErr : Option String) : WritePumpIter :=
  match front with
  | none => if ctxDone then .terminated else .blocked
  | some pkt =>
    if ctxDone then
      if selectChoice then .terminated else writePumpBody pkt writeErr
    else writePumpBody pkt writeErr

/-- Result of the public `Read`. -/
inductive ReadResult where
  | ok (p : Packet)
  | queueClosed
  | blocked
deriving DecidableEq, Repr

/-- `func (t *NetDevice) Read() (Packet, error)`: `pkt, ok := <-t.incomingQueue`.
A buffered item is returned even from a closed channel; with the buffer
empty, a closed channel yields `ok = false` and the call returns
`"incoming queue is closed"`, while an open one blocks. -/
def NetDevice.Read (t : NetDevice) : ReadResult × NetDevice :=
  match t.incomingQueue.items with
  | p :: _ => (.ok p, { t with incomingQueue := t.incomingQueue.recvFront })
  | [] =>
    if t.incomingQueue.closed then (.queueClosed, t) else (.blocked, t)

/-- Result of the public `Write`. `nilPanic` is the run-time panic from
evaluating `t.ctx.Done()` when `t.ctx` is nil (engine never bound). -/
inductive WriteResult where
  | ok
  | deviceClosed
  | blocked
  | nilPanic
deriving DecidableEq, Repr

/-- `func (t *NetDevice) Write(pkt Packet) error`: `select` between sending
`pkt` on `t.outgoingQueue` and receiving from `t.ctx.Done()`. Entering the
select evaluates `t.ctx.Done()`, a panic when `t.ctx` is nil. When both
cases are ready, Go picks pseudo-randomly (`selectChoice = true` picks the
send). With only the send ready it enqueues and returns nil; with only
`Done` ready it returns `"device closed"`; with neither, the caller blocks. -/
def NetDevice.Write (t : NetDevice) (pkt : Packet) (selectChoice : Bool) :
    WriteResult × NetDevice :=
  match t.ctx with
  | none => (.nilPanic, t)
  | some done =>
    if t.outgoingQueue.sendReady then
      if done then
        if selectChoice then
          (.ok, { t with outgoingQueue := t.outgoingQueue.send pkt })
        else (.deviceClosed, t)
      else (.ok, { t with outgoingQueue := t.outgoingQueue.send pkt })
    else if done then (.deviceClosed, t)
    else (.blocked, t)

/-- One transition of the engine state: a public API call, `Bind`, or a pump
goroutine touching a queue (the read pump's send on `incomingQueue`, the
write pump's receive from `outgoingQueue`). -/
inductive Step : NetDevice → NetDevice → Prop where
  | bind (t : NetDevice) : Step t t.Bind
  | close (t : NetDevice) (e : Option String) : Step t (t.Close e).2
  | read (t : NetDevice) : Step t t.Read.2
  | write (t : NetDevice) (pkt : Packet) (c : Bool) : Step t (t.Write pkt c).2
  | pumpEnqueue (t : NetDevice) (p : Packet)
      (h : t.incomingQueue.sendReady = true) :
      Step t { t with incomingQueue := t.incomingQueue.send p }
  | pumpDequeue (t : NetDevice) :
      Step t { t with outgoingQueue := t.outgoingQueue.recvFront }

/-- States reachable through the public API: some successful `NewTun` run
followed by any sequence of steps. -/
def Reachable (t : NetDevice) : Prop :=
  ∃ oe ie t0, (NewTun oe ie).result = .ok t0 ∧ Relation.ReflTransGen Step t0 t

/-- The engine value a successful `NewTun` run returns. -/
def newTunDevice : NetDevice :=
  { fileOpen := true
    incomingQueue := mkChan QUEUE_SIZE
    outgoingQueue := mkChan QUEUE_SIZE
    ctx := none }

/-- Well-formedness of the two queues: both open, both of capacity
`QUEUE_SIZE`, occupancy within capacity. -/
def QueuesWF (t : NetDevice) : Prop :=
  t.incomingQueue.closed = false ∧ t.outgoingQueue.closed = false ∧
  t.incomingQueue.capacity = QUEUE_SIZE ∧ t.outgoingQueue.capacity = QUEUE_SIZE ∧
  t.incomingQueue.items.length ≤ t.incomingQueue.capacity ∧
  t.outgoingQueue.items.length ≤ t.outgoingQueue.capacity

@[simp] theorem Chan.send_closed (c : Chan) (p : Packet) :
    (c.send p).closed = c.closed := rfl

@[simp] theorem Chan.send_capacity (c : Chan) (p : Packet) :
    (c.send p).capacity = c.capacity := rfl

@[simp] theorem Chan.send_items (c : Chan) (p : Packet) :
    (c.send p).items = c.items ++ [p] := rfl

@[simp] theorem Chan.recvFront_closed (c : Chan) :
    c.recvFront.closed = c.closed := rfl

@[simp] theorem Chan.recvFront_capacity (c : Chan) :
    c.recvFront.capacity = c.capacity := rfl

@[simp] theorem Chan.recvFront_items (c : Chan) :
    c.recvFront.items = c.items.tail := rfl

/-- `Close` never touches either queue. -/
theorem Close_queues (t : NetDevice) (e : Option String) :
    (t.Close e).2.incomingQueue = t.incomingQueue ∧
    (t.Close e).2.outgoingQueue = t.outgoingQueue := by
  cases e with
  | some e => exact ⟨rfl, rfl⟩
  | none =>
    simp only [NetDevice.Close]
    cases t.ctx <;> exact ⟨rfl, rfl⟩

/-- The state after `Read` is the old state or the old state with the front
of the incoming queue consumed. -/
theorem Read_state (t : NetDevice) :
    t.Read.2 = t ∨
    t.Read.2 = { t with incomingQueue := t.incomingQueue.recvFront } := by
  simp only [NetDevice.Read]
  cases t.incomingQueue.items with
  | nil => cases t.incomingQueue.closed <;> simp
  | cons p rest => simp

/-- The state after `Write` is the old state or, only when the outgoing
queue had room, the old state with the packet appended. -/
theorem Write_state (t : NetDevice) (pkt : Packet) (c : Bool) :
    (t.Write pkt c).2 = t ∨
    ((t.Write pkt c).2 = { t with outgoingQueue := t.outgoingQueue.send pkt } ∧
      t.outgoingQueue.sendReady = true) := by
  simp only [NetDevice.Write]
  cases t.ctx with
  | none => exact .inl rfl
  | some done =>
    by_cases hr : t.outgoingQueue.sendReady = true
    · cases done <;> cases c <;> simp [hr]
    · cases done <;> simp [hr]

/-- The only engine value `NewTun` ever returns successfully is
`newTunDevice`. -/
theorem newTun_ok_eq (oe ie : Option String) (t0 : NetDevice)
    (h : (NewTun oe ie).result = .ok t0) : t0 = newTunDevice := by
  cases oe with
  | some e => simp [NewTun] at h
  | none =>
    cases ie with
    | some e => simp [NewTun] at h
    | none =>
      simp [NewTun] at h
      exact h.symm

/-- Every step of the engine preserves queue well-formedness. -/
theorem step_preserves_wf {t t' : NetDevice} (hs : Step t t')
    (h : QueuesWF t) : QueuesWF t' := by
  obtain ⟨h1, h2, h3, h4, h5, h6⟩ := h
  cases hs with
  | bind => exact ⟨h1, h2, h3, h4, h5, h6⟩
  | close e =>
    obtain ⟨hi, ho⟩ := Close_queues t e
    rw [QueuesWF, hi, ho]
    exact ⟨h1, h2, h3, h4, h5, h6⟩
  | read =>
    rcases Read_state t with h | h <;> rw [h]
    · exact ⟨h1, h2, h3, h4, h5, h6⟩
    · refine ⟨h1, h2, h3, h4, ?_, h6⟩
      simp only [Chan.recvFront_items, Chan.recvFront_capacity,
        List.length_tail]
      omega
  | write pkt c =>
    rcases Write_state t pkt c with h | ⟨h, hr⟩ <;> rw [h]
    · exact ⟨h1, h2, h3, h4, h5, h6⟩
    · have hlt : t.outgoingQueue.items.length < t.outgoingQueue.capacity := by
        simpa [Chan.sendReady] using hr
      refine ⟨h1, h2, h3, h4, h5, ?_⟩
      simp only [Chan.send_capacity, Chan.send_items, List.length_append,
        List.length_singleton]
      omega
  | pumpEnqueue p hready =>
    have hlt : t.incomingQueue.items.length < t.incomingQueue.capacity := by
      simpa [Chan.sendReady] using hready
    refine ⟨h1, h2, h3, h4, ?_, h6⟩
    simp only [Chan.send_capacity, Chan.send_items, List.length_append,
      List.length_singleton]
    omega
  | pumpDequeue =>
    refine ⟨h1, h2, h3, h4, h5, ?_⟩
    simp only [Chan.recvFront_items, Chan.recvFront_capacity, List.length_tail]
    omega

/-- `newTunDevice` is well-formed. -/
theorem newTunDevice_wf : QueuesWF newTunDevice := by
  refine ⟨rfl, rfl, rfl, rfl, ?_, ?_⟩ <;> simp [newTunDevice, mkChan]

/-- Queue well-formedness holds in every state reachable through the
public API. -/
theorem reachable_wf (t : NetDevice) (h : Reachable t) : QueuesWF t := by
  obtain ⟨oe, ie, t0, h0, hsteps⟩ := h
  have ht0 : t0 = newTunDevice := newTun_ok_eq oe ie t0 h0
  subst ht0
  induction hsteps with
  | refl => exact newTunDevice_wf
  | tail _ hstep ih => exact step_preserves_wf hstep ih

/-- C5: the constructor issues exactly one configuration request, with flags
`IFF_TUN (0x0001) ||| IFF_NO_PI (0x1000) = 0x1001` and the name "tun0"
null-padded in a fixed 16-byte field; it returns the open error when the
control path cannot be opened (issuing nothing), the ioctl error when the
configuration request is rejected, and the engine otherwise. -/
theorem NewTun_config_request :
    (∀ e ie, (NewTun (some e) ie).result = Except.error ("open error: " ++ e) ∧
      (NewTun (some e) ie).ops = []) ∧
    (∀ ie, (NewTun none ie).ops =
      [FileOp.openRW "/dev/net/tun",
       FileOp.ioctl TUNSETIFF
         { ifrName := tun0Bytes ++ List.replicate 12 0
           ifrFlags := Int.ofNat (IFF_TUN ||| IFF_NO_PI) }]) ∧
    Int.ofNat (IFF_TUN ||| IFF_NO_PI) = 0x1001 ∧
    (tun0Bytes ++ List.replicate 12 0).length = 16 ∧
    (∀ e, (NewTun none (some e)).result = Except.error ("ioctl error: " ++ e)) ∧
    (NewTun none none).result = Except.ok newTunDevice := by
  refine ⟨?_, ?_, by decide, by decide, fun e => rfl, rfl⟩
  · intro e ie
    cases ie <;> exact ⟨rfl, rfl⟩
  · intro ie
    cases ie <;> rfl

/-- C2 (code bug): when the control device opens but the `TUNSETIFF` ioctl
fails, `NewTun` returns the error without ever issuing a close on the
already-opened handle — the handle leaks, contrary to the documented
construction atomicity. -/
theorem newTun_ioctl_failure_leaks_handle :
    (NewTun none (some "device or resource busy")).result =
      Except.error "ioctl error: device or resource busy" ∧
    FileOp.openRW "/dev/net/tun" ∈
      (NewTun none (some "device or resource busy")).ops ∧
    FileOp.close ∉ (NewTun none (some "device or resource busy")).ops := by
  refine ⟨rfl, ?_, ?_⟩ <;> decide

/-- C1 (code bug): a read-pump iteration whose raw read fails logs the error
but does not skip the rest of the body — it still enqueues a zero-length
packet (the failed read returns `n = 0`) into the incoming queue. -/
theorem readPump_error_still_enqueues :
    readPumpIter false (Except.error "input/output error") =
      { terminated := false
        allocated := some PACKET_SIZE
        logged := some "read error: input/output error"
        enqueued := some { Buf := [], N := 0 } } ∧
    (readPumpIter false (Except.error "input/output error")).enqueued ≠
      none := by
  have h : readPumpIter false (Except.error "input/output error") =
      { terminated := false
        allocated := some PACKET_SIZE
        logged := some "read error: input/output error"
        enqueued := some { Buf := [], N := 0 } } := rfl
  rw [h]
  exact ⟨rfl, by simp⟩

/-- C6: a read-pump iteration whose raw read succeeds with `n` bytes
allocates a fresh `PACKET_SIZE` buffer and enqueues a packet whose buffer is
truncated to exactly those `n` bytes and whose length field is `n`, so the
packet invariant (length equals, hence is bounded by, the buffer size, both
within `PACKET_SIZE`) holds. -/
theorem readPump_success_packet (data : List Nat)
    (h : data.length ≤ PACKET_SIZE) :
    readPumpIter false (Except.ok data) =
      { terminated := false
        allocated := some PACKET_SIZE
        logged := none
        enqueued := some { Buf := data, N := data.length } } ∧
    (∀ p, (readPumpIter false (Except.ok data)).enqueued = some p →
      p.N = p.Buf.length ∧ p.Buf.length ≤ PACKET_SIZE) := by
  have hbuf :
      ((data ++ (List.replicate PACKET_SIZE (0 : Nat)).drop data.length).take
        data.length) = data := List.take_left data _
  have hiter : readPumpIter false (Except.ok data) =
      { terminated := false
        allocated := some PACKET_SIZE
        logged := none
        enqueued := some { Buf := data, N := data.length } } := by
    simp only [readPumpIter, sysRead, Bool.false_eq_true, if_false, hbuf]
  refine ⟨hiter, ?_⟩
  intro p hp
  rw [hiter] at hp
  simp only [Option.some.injEq] at hp
  subst hp
  exact ⟨rfl, h⟩

/-- C6 witness: the theorem applied to a concrete three-byte read. -/
theorem readPump_success_packet_witness :
    ([69, 0, 20] : List Nat).length ≤ PACKET_SIZE ∧
    (readPumpIter false (Except.ok [69, 0, 20]) =
      { terminated := false
        allocated := some PACKET_SIZE
        logged := none
        enqueued := some { Buf := [69, 0, 20], N := 3 } } ∧
    (∀ p, (readPumpIter false (Except.ok [69, 0, 20])).enqueued = some p →
      p.N = p.Buf.length ∧ p.Buf.length ≤ PACKET_SIZE)) :=
  ⟨by decide, readPump_success_packet [69, 0, 20] (by decide)⟩

/-- C3 counterexample: after `Close` on a started engine (token set) with
room in the outgoing queue, the `select` in `Write` can pick the ready send:
the call enqueues the packet and returns success instead of failing. -/
theorem write_after_close_can_enqueue :
    (newTunDevice.Bind.Close none).2.ctx = some true ∧
    ((newTunDevice.Bind.Close none).2.Write { Buf := [1], N := 1 } true).1 =
      WriteResult.ok ∧
    ((newTunDevice.Bind.Close none).2.Write { Buf := [1], N := 1 }
        true).2.outgoingQueue.items = [{ Buf := [1], N := 1 }] := by
  refine ⟨rfl, ?_, ?_⟩ <;> decide

/-- What `Write` does on an engine whose context reports done-state `d`:
with the token set it never blocks — on a full outgoing queue it fails with
the device-closed error, and with room the select choice decides between a
successful enqueue and the device-closed error; with the token unset and
room, it enqueues at the back and succeeds. -/
def WriteBehaviour (t : NetDevice) (pkt : Packet) (c : Bool) (d : Bool) :
    Prop :=
  (d = true → (t.Write pkt c).1 ≠ WriteResult.blocked) ∧
  (d = true → t.outgoingQueue.sendReady = false →
    (t.Write pkt c).1 = WriteResult.deviceClosed ∧ (t.Write pkt c).2 = t) ∧
  (d = true → t.outgoingQueue.sendReady = true →
    (c = true → (t.Write pkt c).1 = WriteResult.ok ∧
      (t.Write pkt c).2.outgoingQueue.items =
        t.outgoingQueue.items ++ [pkt]) ∧
    (c = false → (t.Write pkt c).1 = WriteResult.deviceClosed ∧
      (t.Write pkt c).2 = t)) ∧
  (d = false → t.outgoingQueue.sendReady = true →
    (t.Write pkt c).1 = WriteResult.ok ∧
    (t.Write pkt c).2.outgoingQueue.items = t.outgoingQueue.items ++ [pkt])

/-- C3 (amended): once the token is set, `Write` never blocks, failing with
the device-closed error whenever the outgoing queue is full, but with room
the select picks pseudo-randomly, so the call either enqueues successfully
or fails; while the token is unset and the queue has room, `Write` enqueues
the packet and returns success. -/
theorem Write_cancellation_semantics (t : NetDevice) (pkt : Packet)
    (c : Bool) (d : Bool) (h : t.ctx = some d) :
    WriteBehaviour t pkt c d := by
  unfold WriteBehaviour
  simp only [NetDevice.Write, h]
  by_cases hr : t.outgoingQueue.sendReady = true
  · cases d <;> cases c <;> simp [hr]
  · rw [Bool.not_eq_true] at hr
    cases d <;> cases c <;> simp [hr]

/-- C3 witness: the amended behaviour at the concrete closed engine, a
one-byte packet and the select choice favouring the done branch. -/
theorem Write_cancellation_semantics_witness :
    (newTunDevice.Bind.Close none).2.ctx = some true ∧
    WriteBehaviour (newTunDevice.Bind.Close none).2 { Buf := [2], N := 1 }
      false true :=
  ⟨rfl, Write_cancellation_semantics (newTunDevice.Bind.Close none).2
    { Buf := [2], N := 1 } false true rfl⟩

/-- C4 counterexample: on a started engine whose handle release fails,
`Close` returns the close error having left the token unset. -/
theorem close_failure_leaves_token_unset :
    (newTunDevice.Bind.Close (some "bad file descriptor")).1 =
      CloseResult.closeError "close error: bad file descriptor" ∧
    (newTunDevice.Bind.Close (some "bad file descriptor")).2.ctx =
      some false := ⟨rfl, rfl⟩

/-- C4 (amended): `Close` on a started engine attempts the handle release
first; when the release fails it returns the close error with the whole
state — cancellation token included — unchanged, and only when the release
succeeds does it release the handle, set the token and return success. -/
theorem Close_semantics (t : NetDevice) (d : Bool) (h : t.ctx = some d) :
    (∀ e, (t.Close (some e)).1 =
        CloseResult.closeError ("close error: " ++ e) ∧
      (t.Close (some e)).2 = t) ∧
    ((t.Close none).1 = CloseResult.ok ∧
      (t.Close none).2.ctx = some true ∧
      (t.Close none).2.fileOpen = false) := by
  refine ⟨fun e => ⟨rfl, rfl⟩, ?_⟩
  simp [NetDevice.Close, h]

/-- C4 witness: the amended behaviour at the concrete started engine. -/
theorem Close_semantics_witness :
    newTunDevice.Bind.ctx = some false ∧
    ((∀ e, (newTunDevice.Bind.Close (some e)).1 =
        CloseResult.closeError ("close error: " ++ e) ∧
      (newTunDevice.Bind.Close (some e)).2 = newTunDevice.Bind) ∧
    ((newTunDevice.Bind.Close none).1 = CloseResult.ok ∧
      (newTunDevice.Bind.Close none).2.ctx = some true ∧
      (newTunDevice.Bind.Close none).2.fileOpen = false)) :=
  ⟨rfl, Close_semantics newTunDevice.Bind false rfl⟩

/-- C7 counterexample: a zero-length packet dequeued by the write pump is
not transmitted as a zero-byte raw write — the syscall wrapper takes
`&buf[0]` of the empty view, a run-time panic. -/
theorem writePump_zero_length_panics :
    writePumpIter false (some { Buf := [], N := 0 }) false none =
      WritePumpIter.panicked := rfl

/-- C7 (amended): every packet with `0 < N ≤ |Buf|` dequeued by the write
pump is handed to the device as exactly the first `N` bytes of the very
buffer the caller submitted via `Write` — no truncation, no padding — and
that holds whether or not the raw write then reports an error; `Write`
itself enqueues the packet unchanged. Zero-length views instead panic. -/
theorem writePump_exact_bytes (pkt : Packet) (we : Option String) (c : Bool)
    (h1 : 0 < pkt.N) (h2 : pkt.N ≤ pkt.Buf.length) :
    writePumpIter false (some pkt) c we =
      WritePumpIter.wrote (pkt.Buf.take pkt.N)
        (we.map (fun e => "write error: " ++ e)) ∧
    (pkt.Buf.take pkt.N).length = pkt.N ∧
    (∀ t : NetDevice, t.ctx = some false →
      t.outgoingQueue.sendReady = true →
      (t.Write pkt c).2.outgoingQueue.items =
        t.outgoingQueue.items ++ [pkt]) := by
  have hlen : (pkt.Buf.take pkt.N).length = pkt.N := by
    rw [List.length_take]
    omega
  have hne : ¬((pkt.Buf.take pkt.N).isEmpty = true) := by
    intro hemp
    rw [List.isEmpty_iff] at hemp
    rw [hemp] at hlen
    simp at hlen
    omega
  refine ⟨?_, hlen, ?_⟩
  · simp only [writePumpIter, writePumpBody]
    rw [if_neg hne]
    cases we <;> rfl
  · intro t hctx hr
    simp only [NetDevice.Write, hctx, hr, if_true]
    simp

/-- C7 witness: the amended statement at a concrete two-byte packet whose
buffer holds a third byte beyond its declared length. -/
theorem writePump_exact_bytes_witness :
    0 < (2 : Nat) ∧ (2 : Nat) ≤ ([10, 20, 30] : List Nat).length ∧
    (writePumpIter false (some { Buf := [10, 20, 30], N := 2 }) false
        (some "input/output error") =
      WritePumpIter.wrote [10, 20]
        (some "write error: input/output error") ∧
    ([10, 20, 30] : List Nat).take 2 = [10, 20] ∧
    (∀ t : NetDevice, t.ctx = some false →
      t.outgoingQueue.sendReady = true →
      (t.Write { Buf := [10, 20, 30], N := 2 } false).2.outgoingQueue.items =
        t.outgoingQueue.items ++ [{ Buf := [10, 20, 30], N := 2 }])) := by
  have h := writePump_exact_bytes { Buf := [10, 20, 30], N := 2 }
    (some "input/output error") false (by decide) (by decide)
  exact ⟨by decide, by decide, h.1, by decide, h.2.2⟩

/-- C8: in every reachable engine state `Read` returns the packet at the
front of the incoming queue when one is available, and would fail with the
queue-closed error exactly when the incoming queue is closed — which no
reachable state ever is, since `Close` leaves the queue open; so the error
branch is unreachable through the public API and a `Read` on an empty
incoming queue after `Close` blocks rather than failing. -/
theorem Read_spec (t : NetDevice) (h : Reachable t) :
    (∀ p rest, t.incomingQueue.items = p :: rest →
      t.Read.1 = ReadResult.ok p) ∧
    (t.Read.1 = ReadResult.queueClosed ↔ t.incomingQueue.closed = true) ∧
    (∀ e, (t.Close e).2.incomingQueue.closed = false) ∧
    (t.incomingQueue.items = [] →
      ∀ e, (t.Close e).2.Read.1 = ReadResult.blocked) := by
  obtain ⟨h1, h2, h3, h4, h5, h6⟩ := reachable_wf t h
  have hfront : ∀ p rest, t.incomingQueue.items = p :: rest →
      t.Read.1 = ReadResult.ok p := by
    intro p rest hq
    simp only [NetDevice.Read, hq]
  refine ⟨hfront, ?_, ?_, ?_⟩
  · have hnot : t.Read.1 ≠ ReadResult.queueClosed := by
      cases hq : t.incomingQueue.items with
      | nil => simp only [NetDevice.Read, hq, h1]; simp
      | cons p rest => rw [hfront p rest hq]; simp
    rw [h1]
    exact iff_of_false hnot (by simp)
  · intro e
    rw [(Close_queues t e).1]
    exact h1
  · intro hq e
    have hi := (Close_queues t e).1
    simp only [NetDevice.Read, hi, hq, h1]
    simp

/-- C8 witness: the statement at the freshly constructed engine, reachable
in zero steps. -/
theorem Read_spec_witness :
    Reachable newTunDevice ∧
    ((∀ p rest, newTunDevice.incomingQueue.items = p :: rest →
      newTunDevice.Read.1 = ReadResult.ok p) ∧
    (newTunDevice.Read.1 = ReadResult.queueClosed ↔
      newTunDevice.incomingQueue.closed = true) ∧
    (∀ e, (newTunDevice.Close e).2.incomingQueue.closed = false) ∧
    (newTunDevice.incomingQueue.items = [] →
      ∀ e, (newTunDevice.Close e).2.Read.1 = ReadResult.blocked)) := by
  have hreach : Reachable newTunDevice :=
    ⟨none, none, newTunDevice, rfl, Relation.ReflTransGen.refl⟩
  exact ⟨hreach, Read_spec newTunDevice hreach⟩

/-- Sending a whole list of packets into a channel appends them in
submission order. -/
theorem Chan.foldl_send_items (c : Chan) (ps : List Packet) :
    (ps.foldl Chan.send c).items = c.items ++ ps := by
  induction ps generalizing c with
  | nil => simp
  | cons p ps ih => simp [ih, Chan.send]

/-- C9: every reachable engine state has its two queues at the fixed
capacity `QUEUE_SIZE = 10` with occupancy never above it, and both queues
are FIFO: any sequence of sends appends the packets at the back in
submission order and a receive takes the front, so packets leave each queue
in the order they entered. -/
theorem queues_fixed_capacity_fifo (t : NetDevice) (h : Reachable t) :
    t.incomingQueue.capacity = QUEUE_SIZE ∧
    t.outgoingQueue.capacity = QUEUE_SIZE ∧
    t.incomingQueue.items.length ≤ QUEUE_SIZE ∧
    t.outgoingQueue.items.length ≤ QUEUE_SIZE ∧
    (∀ ps : List Packet, (ps.foldl Chan.send t.incomingQueue).items =
      t.incomingQueue.items ++ ps) ∧
    (∀ ps : List Packet, (ps.foldl Chan.send t.outgoingQueue).items =
      t.outgoingQueue.items ++ ps) ∧
    (∀ p rest, t.incomingQueue.items = p :: rest →
      t.incomingQueue.recvFront.items = rest ∧ t.Read.1 = ReadResult.ok p) := by
  obtain ⟨h1, h2, h3, h4, h5, h6⟩ := reachable_wf t h
  refine ⟨h3, h4, by omega, by omega,
    fun ps => Chan.foldl_send_items _ ps,
    fun ps => Chan.foldl_send_items _ ps, ?_⟩
  intro p rest hq
  constructor
  · simp [Chan.recvFront, hq]
  · simp only [NetDevice.Read, hq]

/-- C9 witness: the statement at the freshly constructed engine. -/
theorem queues_fixed_capacity_fifo_witness :
    Reachable newTunDevice ∧
    (newTunDevice.incomingQueue.capacity = QUEUE_SIZE ∧
    newTunDevice.outgoingQueue.capacity = QUEUE_SIZE ∧
    newTunDevice.incomingQueue.items.length ≤ QUEUE_SIZE ∧
    newTunDevice.outgoingQueue.items.length ≤ QUEUE_SIZE ∧
    (∀ ps : List Packet, (ps.foldl Chan.send newTunDevice.incomingQueue).items =
      newTunDevice.incomingQueue.items ++ ps) ∧
    (∀ ps : List Packet, (ps.foldl Chan.send newTunDevice.outgoingQueue).items =
      newTunDevice.outgoingQueue.items ++ ps) ∧
    (∀ p rest, newTunDevice.incomingQueue.items = p :: rest →
      newTunDevice.incomingQueue.recvFront.items = rest ∧
      newTunDevice.Read.1 = ReadResult.ok p)) := by
  have hreach : Reachable newTunDevice :=
    ⟨none, none, newTunDevice, rfl, Relation.ReflTransGen.refl⟩
  exact ⟨hreach, queues_fixed_capacity_fifo newTunDevice hreach⟩

/-- C10 counterexample: on a constructed, never-bound engine whose handle
release fails, `Close` returns the close error — the nil `cancel` is never
reached, so the call does not panic. -/
theorem unbound_close_failure_no_panic :
    newTunDevice.ctx = none ∧
    (newTunDevice.Close (some "input/output error")).1 =
      CloseResult.closeError "close error: input/output error" ∧
    (newTunDevice.Close (some "input/output error")).1 ≠
      CloseResult.nilPanic := ⟨rfl, rfl, by decide⟩

/-- C10 (amended): on an engine whose context fields are nil (`Bind` never
called): `Write` always panics evaluating `t.ctx.Done()` and changes
nothing; `Close` panics invoking the nil `cancel` only when the handle
release succeeds, while a failed release returns the close error without
panicking; and `Bind` is the only initializer — `NewTun` returns the fields
nil and `Read`, `Write` and `Close` keep them nil, while `Bind` sets them. -/
theorem unbound_engine_semantics (t : NetDevice) (h : t.ctx = none) :
    (∀ pkt c, (t.Write pkt c).1 = WriteResult.nilPanic ∧
      (t.Write pkt c).2 = t) ∧
    ((t.Close none).1 = CloseResult.nilPanic) ∧
    (∀ e, (t.Close (some e)).1 =
      CloseResult.closeError ("close error: " ++ e)) ∧
    (∀ e, (t.Close e).2.ctx = none) ∧
    (t.Read.2.ctx = none) ∧
    (∀ pkt c, (t.Write pkt c).2.ctx = none) ∧
    (t.Bind.ctx = some false) ∧
    (∀ oe ie t0, (NewTun oe ie).result = Except.ok t0 → t0.ctx = none) := by
  have hwrite : ∀ pkt c, (t.Write pkt c).1 = WriteResult.nilPanic ∧
      (t.Write pkt c).2 = t := by
    intro pkt c
    simp [NetDevice.Write, h]
  refine ⟨hwrite, ?_, fun e => rfl, ?_, ?_, ?_, rfl, ?_⟩
  · simp [NetDevice.Close, h]
  · intro e
    cases e with
    | some e => exact h
    | none => simp [NetDevice.Close, h]
  · rcases Read_state t with hs | hs <;> rw [hs] <;> exact h
  · intro pkt c
    rw [(hwrite pkt c).2]
    exact h
  · intro oe ie t0 h0
    rw [newTun_ok_eq oe ie t0 h0]
    rfl

/-- C10 witness: the amended statement at the freshly constructed engine. -/
theorem unbound_engine_semantics_witness :
    newTunDevice.ctx = none ∧
    ((∀ pkt c, (newTunDevice.Write pkt c).1 = WriteResult.nilPanic ∧
      (newTunDevice.Write pkt c).2 = newTunDevice) ∧
    ((newTunDevice.Close none).1 = CloseResult.nilPanic) ∧
    (∀ e, (newTunDevice.Close (some e)).1 =
      CloseResult.closeError ("close error: " ++ e)) ∧
    (∀ e, (newTunDevice.Close e).2.ctx = none) ∧
    (newTunDevice.Read.2.ctx = none) ∧
    (∀ pkt c, (newTunDevice.Write pkt c).2.ctx = none) ∧
    (newTunDevice.Bind.ctx = some false) ∧
    (∀ oe ie t0, (NewTun oe ie).result = Except.ok t0 → t0.ctx = none)) :=
  ⟨rfl, unbound_engine_semantics newTunDevice rfl⟩

end Network
